import Mathlib

/-! Verification of the CRM relationship service (`src/db.js`).

The service keeps the bidirectional Contact-Company link consistent under
four operations: `linkContactToCompany`, `unlinkContactFromCompany`,
`updateCompanyContacts` (replaceCompanyMembers) and `updateContactCompany`
(reassignContactCompany).  We embed the Mongo collections as in-memory
lists of documents, each persisted write (`save` / `updateMany`) as a pure
state transformation, and record the order of issued writes as a trace of
`WriteEvent`s so that temporal claims about write ordering can be stated.
-/

deriving instance DecidableEq for Except

namespace CRM

/-- A Contact document: `_id`, owning user (`createdBy`), and the optional
back-reference `company_id`. -/
structure Contact where
  id : Nat
  createdBy : Nat
  company_id : Option Nat
deriving Repr, DecidableEq

/-- A Company document: `_id`, owning user (`createdBy`), and the member
array `contacts` of contact ids. -/
structure Company where
  id : Nat
  createdBy : Nat
  contacts : List Nat
deriving Repr, DecidableEq

/-- The document store: the Contact collection and the Company collection. -/
structure DB where
  contacts : List Contact
  companies : List Company
deriving Repr, DecidableEq

/-- One persisted write issued by an operation, in program order.
`contactWrite` is a `contact.save()`, `companyWrite` a `company.save()`,
and `contactsBulkWrite` a `Contact.updateMany` over an id set. -/
inductive WriteEvent where
  | contactWrite (id : Nat) : WriteEvent
  | companyWrite (id : Nat) : WriteEvent
  | contactsBulkWrite (ids : List Nat) : WriteEvent
deriving Repr, DecidableEq

/-- The errors thrown by `src/db.js`: `'Contact not found'`,
`'Company not found'`, `'One or more contacts not found'`. -/
inductive DbError where
  | contactNotFound
  | companyNotFound
  | contactsNotFound
deriving Repr, DecidableEq

/-- `Contact.findOne({ _id: contactId, createdBy: userId })`. -/
def findContact (db : DB) (contactId userId : Nat) : Option Contact :=
  db.contacts.find? (fun c => c.id == contactId && c.createdBy == userId)

/-- `Company.findOne({ _id: companyId, createdBy: userId })`. -/
def findCompany (db : DB) (companyId userId : Nat) : Option Company :=
  db.companies.find? (fun c => c.id == companyId && c.createdBy == userId)

/-- `contact.save()`: persist the document, replacing the stored document
with the same `_id`. -/
def saveContact (db : DB) (c : Contact) : DB :=
  { db with contacts := db.contacts.map (fun x => if x.id == c.id then c else x) }

/-- `company.save()`: persist the document, replacing the stored document
with the same `_id`. -/
def saveCompany (db : DB) (c : Company) : DB :=
  { db with companies := db.companies.map (fun x => if x.id == c.id then c else x) }

/-- `Contact.find({ _id: { $in: ids }, createdBy: userId })`. -/
def findContactsIn (db : DB) (ids : List Nat) (userId : Nat) : List Contact :=
  db.contacts.filter (fun c => ids.contains c.id && c.createdBy == userId)

/-- `Contact.updateMany({ _id: { $in: ids }, createdBy: userId },
{ company_id: companyId })`. -/
def setCompanyIdMany (db : DB) (ids : List Nat) (userId companyId : Nat) : DB :=
  { db with contacts := db.contacts.map (fun c =>
      if ids.contains c.id && c.createdBy == userId then
        { c with company_id := some companyId } else c) }

/-- `Contact.updateMany({ _id: { $in: ids }, createdBy: userId },
{ $unset: { company_id: 1 } })`. -/
def unsetCompanyIdMany (db : DB) (ids : List Nat) (userId : Nat) : DB :=
  { db with contacts := db.contacts.map (fun c =>
      if ids.contains c.id && c.createdBy == userId then
        { c with company_id := none } else c) }

/-- `linkContactToCompany(contactId, companyId, userId)` from `src/db.js`:
verify both documents exist under the user (contact error reported first),
set the contact's `company_id` and save it, then append the contact to the
company's `contacts` and save the company unless already present. -/
def linkContactToCompany (db : DB) (contactId companyId userId : Nat) :
    Except DbError (Contact × Company) × DB × List WriteEvent :=
  match findContact db contactId userId with
  | none => (.error .contactNotFound, db, [])
  | some contact =>
    match findCompany db companyId userId with
    | none => (.error .companyNotFound, db, [])
    | some company =>
      let contact' := { contact with company_id := some companyId }
      let db₁ := saveContact db contact'
      if company.contacts.contains contactId then
        (.ok (contact', company), db₁, [.contactWrite contactId])
      else
        let company' := { company with contacts := company.contacts ++ [contactId] }
        (.ok (contact', company'), saveCompany db₁ company',
          [.contactWrite contactId, .companyWrite companyId])

/-- `unlinkContactFromCompany(contactId, companyId, userId)` from
`src/db.js`: verify both documents exist under the user, null the
contact's `company_id` and save it, then filter the contact out of the
company's `contacts` and save the company. -/
def unlinkContactFromCompany (db : DB) (contactId companyId userId : Nat) :
    Except DbError (Contact × Company) × DB × List WriteEvent :=
  match findContact db contactId userId with
  | none => (.error .contactNotFound, db, [])
  | some contact =>
    match findCompany db companyId userId with
    | none => (.error .companyNotFound, db, [])
    | some company =>
      let contact' := { contact with company_id := none }
      let db₁ := saveContact db contact'
      let company' := { company with
        contacts := company.contacts.filter (fun i => i != contactId) }
      (.ok (contact', company'), saveCompany db₁ company',
        [.contactWrite contactId, .companyWrite companyId])

/-- `updateCompanyContacts(companyId, contactIds, userId)` from
`src/db.js`: verify the company exists under the user; resolve all
requested contacts under the user and fail when the resolved count differs
from the requested count; then replace the company's `contacts` with the
request list and save the company; then bulk-set `company_id` on the
requested contacts; then bulk-unset `company_id` on previous members
absent from the request, when there are any. -/
def updateCompanyContacts (db : DB) (companyId : Nat) (contactIds : List Nat)
    (userId : Nat) :
    Except DbError Company × DB × List WriteEvent :=
  match findCompany db companyId userId with
  | none => (.error .companyNotFound, db, [])
  | some company =>
    let contacts := findContactsIn db contactIds userId
    if contacts.length != contactIds.length then
      (.error .contactsNotFound, db, [])
    else
      let previousContactIds := company.contacts
      let company' := { company with contacts := contactIds }
      let db₁ := saveCompany db company'
      let db₂ := setCompanyIdMany db₁ contactIds userId companyId
      let removedContactIds := previousContactIds.filter
        (fun i => !(contactIds.contains i))
      if removedContactIds.length > 0 then
        (.ok company', unsetCompanyIdMany db₂ removedContactIds userId,
          [.companyWrite companyId, .contactsBulkWrite contactIds,
           .contactsBulkWrite removedContactIds])
      else
        (.ok company', db₂,
          [.companyWrite companyId, .contactsBulkWrite contactIds])

/-- `updateContactCompany(contactId, companyId, userId)` from `src/db.js`:
verify the contact exists under the user; when `companyId` is null, unlink
from the current company when there is one, else no-op; otherwise verify
the new company exists, unlink from the old company when it differs, then
link to the new company. -/
def updateContactCompany (db : DB) (contactId : Nat) (companyId : Option Nat)
    (userId : Nat) :
    Except DbError (Contact × Option Company) × DB × List WriteEvent :=
  match findContact db contactId userId with
  | none => (.error .contactNotFound, db, [])
  | some contact =>
    match companyId with
    | none =>
      match contact.company_id with
      | some oldId =>
        match unlinkContactFromCompany db contactId oldId userId with
        | (.error e, db', evs) => (.error e, db', evs)
        | (.ok p, db', evs) => (.ok (p.1, some p.2), db', evs)
      | none => (.ok (contact, none), db, [])
    | some newId =>
      match findCompany db newId userId with
      | none => (.error .companyNotFound, db, [])
      | some _ =>
        match contact.company_id with
        | some oldId =>
          if oldId != newId then
            match unlinkContactFromCompany db contactId oldId userId with
            | (.error e, db₁, evs₁) => (.error e, db₁, evs₁)
            | (.ok _, db₁, evs₁) =>
              match linkContactToCompany db₁ contactId newId userId with
              | (r, db₂, evs₂) =>
                (r.map (fun p => (p.1, some p.2)), db₂, evs₁ ++ evs₂)
          else
            match linkContactToCompany db contactId newId userId with
            | (r, db₂, evs₂) => (r.map (fun p => (p.1, some p.2)), db₂, evs₂)
        | none =>
          match linkContactToCompany db contactId newId userId with
          | (r, db₂, evs₂) => (r.map (fun p => (p.1, some p.2)), db₂, evs₂)

/-- A write event on the contact side (a `contact.save()` or a
`Contact.updateMany`). -/
def isContactSide : WriteEvent → Bool
  | .contactWrite _ => true
  | .contactsBulkWrite _ => true
  | .companyWrite _ => false

/-- A write event on the company side (a `company.save()`). -/
def isCompanySide : WriteEvent → Bool
  | .companyWrite _ => true
  | .contactWrite _ => false
  | .contactsBulkWrite _ => false

/-- Scan a trace left to right, tracking whether a contact-side write has
been seen; every company-side write must be preceded by one. -/
def contactPrecedesAux : Bool → List WriteEvent → Bool
  | _, [] => true
  | seen, e :: rest =>
    (if isCompanySide e then seen else true)
      && contactPrecedesAux (seen || isContactSide e) rest

/-- A trace satisfies the documented convergence order when every
company-side write is preceded by some contact-side write. -/
def contactPrecedes (evs : List WriteEvent) : Bool :=
  contactPrecedesAux false evs

/-- `List.contains` agrees with list membership on `Nat`. -/
theorem contains_iff_mem (l : List Nat) (a : Nat) : l.contains a = true ↔ a ∈ l := by
  simp [List.contains, List.elem_iff]

/-- Replacing every element matching `q` by `c` makes `c` the result of a
search by `p`, provided some element matches `q`, `c` itself satisfies
`p`, and `p` only holds on elements matching `q`. -/
theorem find?_map_replace {α : Type} (p q : α → Bool) (c : α) :
    ∀ l : List α, (∃ x ∈ l, q x = true) → p c = true →
      (∀ x, p x = true → q x = true) →
      (l.map (fun x => if q x then c else x)).find? p = some c := by
  intro l
  induction l with
  | nil =>
    intro hex _ _
    rcases hex with ⟨x, hx, _⟩
    cases hx
  | cons a l ih =>
    intro hex hpc himp
    by_cases hqa : q a = true
    · simp [hqa, List.find?, hpc]
    · have hpa : ¬ p a = true := fun h => hqa (himp a h)
      have hex' : ∃ x ∈ l, q x = true := by
        rcases hex with ⟨x, hx, hqx⟩
        rcases List.mem_cons.mp hx with rfl | hx'
        · exact absurd hqx hqa
        · exact ⟨x, hx', hqx⟩
      simp only [List.map_cons, if_neg hqa]
      rw [List.find?_cons_of_neg _ hpa]
      exact ih hex' hpc himp

/-- Replacing every element matching `q` by `c` does not change a search
by `p` when no element satisfying `p` matches `q` and `c` does not satisfy
`p`. -/
theorem find?_map_other {α : Type} (p q : α → Bool) (c : α)
    (hpc : p c = false) (hdisj : ∀ x, p x = true → q x = false) :
    ∀ l : List α,
      (l.map (fun x => if q x then c else x)).find? p = l.find? p := by
  intro l
  induction l with
  | nil => rfl
  | cons a l ih =>
    by_cases hqa : q a = true
    · have hpa : ¬ p a = true := fun h => by
        rw [hdisj a h] at hqa; exact Bool.false_ne_true hqa
      simp only [List.map_cons, if_pos hqa]
      rw [List.find?_cons_of_neg _ (fun h => by rw [hpc] at h; exact Bool.false_ne_true h),
        List.find?_cons_of_neg _ hpa]
      exact ih
    · simp only [List.map_cons, if_neg hqa]
      by_cases hpa : p a = true
      · rw [List.find?_cons_of_pos _ hpa, List.find?_cons_of_pos _ hpa]
      · rw [List.find?_cons_of_neg _ hpa, List.find?_cons_of_neg _ hpa]
        exact ih

/-- Mapping a function that preserves the search predicate commutes with
`find?`. -/
theorem find?_map_update {α : Type} (p : α → Bool) (f : α → α)
    (hf : ∀ x, p (f x) = p x) :
    ∀ l : List α, (l.map f).find? p = (l.find? p).map f := by
  intro l
  induction l with
  | nil => rfl
  | cons a l ih =>
    by_cases hpa : p a = true
    · rw [List.map_cons, List.find?_cons_of_pos _ (by rw [hf]; exact hpa),
        List.find?_cons_of_pos _ hpa]
      rfl
    · rw [List.map_cons, List.find?_cons_of_neg _ (by rw [hf]; exact hpa),
        List.find?_cons_of_neg _ hpa]
      exact ih

/-- Replacing every element matching `q` by `c` is the identity when every
matching element already equals `c`. -/
theorem map_replace_self {α : Type} (q : α → Bool) (c : α) :
    ∀ l : List α, (∀ x ∈ l, q x = true → x = c) →
      l.map (fun x => if q x then c else x) = l := by
  intro l
  induction l with
  | nil => intro _; rfl
  | cons a l ih =>
    intro h
    by_cases hqa : q a = true
    · simp only [List.map_cons, if_pos hqa, ih (fun x hx => h x (List.mem_cons_of_mem a hx))]
      rw [h a (List.mem_cons_self a l) hqa]
    · simp only [List.map_cons, if_neg hqa, ih (fun x hx => h x (List.mem_cons_of_mem a hx))]

/-- Every element of a replace-map that matches `q` is the replacement
`c`. -/
theorem mem_map_replace {α : Type} (q : α → Bool) (c : α) (l : List α) :
    ∀ x ∈ l.map (fun y => if q y then c else y), q x = true → x = c := by
  intro x hx hqx
  rcases List.mem_map.mp hx with ⟨y, _, hy⟩
  by_cases hqy : q y = true
  · rw [if_pos hqy] at hy
    exact hy.symm
  · rw [if_neg hqy] at hy
    exact absurd (hy ▸ hqx) hqy

/-- Unpack a successful `find?`: the found element satisfies the predicate
and is a member of the list. -/
theorem find?_some_spec {α : Type} (p : α → Bool) (l : List α) (a : α)
    (h : l.find? p = some a) : p a = true ∧ a ∈ l :=
  ⟨List.find?_some h, List.mem_of_find?_eq_some h⟩

/-- The write trace of `linkContactToCompany` is empty, a single contact
write, or a contact write followed by a company write. -/
theorem link_events (db : DB) (cid coid uid : Nat) :
    (linkContactToCompany db cid coid uid).2.2 = [] ∨
    (linkContactToCompany db cid coid uid).2.2 = [.contactWrite cid] ∨
    (linkContactToCompany db cid coid uid).2.2 =
      [.contactWrite cid, .companyWrite coid] := by
  unfold linkContactToCompany
  cases findContact db cid uid with
  | none => exact Or.inl rfl
  | some contact =>
    cases findCompany db coid uid with
    | none => exact Or.inl rfl
    | some company =>
      dsimp only
      by_cases h : company.contacts.contains cid = true
      · rw [if_pos h]
        exact Or.inr (Or.inl rfl)
      · rw [if_neg h]
        exact Or.inr (Or.inr rfl)

/-- The write trace of `unlinkContactFromCompany` is empty or a contact
write followed by a company write. -/
theorem unlink_events (db : DB) (cid coid uid : Nat) :
    (unlinkContactFromCompany db cid coid uid).2.2 = [] ∨
    (unlinkContactFromCompany db cid coid uid).2.2 =
      [.contactWrite cid, .companyWrite coid] := by
  unfold unlinkContactFromCompany
  cases findContact db cid uid with
  | none => exact Or.inl rfl
  | some contact =>
    cases findCompany db coid uid with
    | none => exact Or.inl rfl
    | some company => exact Or.inr rfl

/-- Contact-before-company holds for every `linkContactToCompany` trace. -/
theorem link_trace_ordered (db : DB) (cid coid uid : Nat) :
    contactPrecedes (linkContactToCompany db cid coid uid).2.2 = true := by
  rcases link_events db cid coid uid with h | h | h <;> rw [h] <;> rfl

/-- Contact-before-company holds for every `unlinkContactFromCompany`
trace. -/
theorem unlink_trace_ordered (db : DB) (cid coid uid : Nat) :
    contactPrecedes (unlinkContactFromCompany db cid coid uid).2.2 = true := by
  rcases unlink_events db cid coid uid with h | h <;> rw [h] <;> rfl

/-- Contact-before-company holds for every `updateContactCompany` trace. -/
theorem reassign_trace_ordered (db : DB) (cid : Nat) (oc : Option Nat)
    (uid : Nat) :
    contactPrecedes (updateContactCompany db cid oc uid).2.2 = true := by
  unfold updateContactCompany
  cases findContact db cid uid with
  | none => rfl
  | some contact =>
    dsimp only
    cases oc with
    | none =>
      dsimp only
      cases contact.company_id with
      | none => rfl
      | some oldId =>
        dsimp only
        rcases hu : unlinkContactFromCompany db cid oldId uid with ⟨r, db', evs⟩
        have h := unlink_trace_ordered db cid oldId uid
        rw [hu] at h
        cases r with
        | error e => exact h
        | ok p => exact h
    | some newId =>
      dsimp only
      cases findCompany db newId uid with
      | none => rfl
      | some company =>
        dsimp only
        cases contact.company_id with
        | none =>
          dsimp only
          rcases hl : linkContactToCompany db cid newId uid with ⟨r, db₂, evs₂⟩
          have h := link_trace_ordered db cid newId uid
          rw [hl] at h
          exact h
        | some oldId =>
          dsimp only
          by_cases hne : (oldId != newId) = true
          · rw [if_pos hne]
            rcases hu : unlinkContactFromCompany db cid oldId uid with ⟨r, db₁, evs₁⟩
            cases r with
            | error e =>
              have h := unlink_trace_ordered db cid oldId uid
              rw [hu] at h
              exact h
            | ok p =>
              dsimp only
              have hu' := unlink_events db cid oldId uid
              rw [hu] at hu'
              rcases hl : linkContactToCompany db₁ cid newId uid with ⟨r₂, db₂, evs₂⟩
              have hl' := link_events db₁ cid newId uid
              rw [hl] at hl'
              simp only at hu' hl'
              rcases hu' with h₁ | h₁ <;> rcases hl' with h₂ | h₂ | h₂ <;>
                subst h₁ <;> subst h₂ <;> rfl
          · rw [if_neg hne]
            rcases hl : linkContactToCompany db cid newId uid with ⟨r, db₂, evs₂⟩
            have h := link_trace_ordered db cid newId uid
            rw [hl] at h
            exact h

/-- `updateCompanyContacts` satisfies contact-before-company only when its
trace is empty: whenever it writes at all, the company write comes
first. -/
theorem replaceMembers_trace_company_first (db : DB) (coid : Nat)
    (newIds : List Nat) (uid : Nat) :
    contactPrecedes (updateCompanyContacts db coid newIds uid).2.2 =
      ((updateCompanyContacts db coid newIds uid).2.2).isEmpty := by
  unfold updateCompanyContacts
  cases findCompany db coid uid with
  | none => rfl
  | some company =>
    dsimp only
    by_cases h : ((findContactsIn db newIds uid).length != newIds.length) = true
    · rw [if_pos h]
      rfl
    · rw [if_neg h]
      by_cases h₂ : (List.filter (fun i => !(newIds.contains i)) company.contacts).length > 0
      · rw [if_pos h₂]
        rfl
      · rw [if_neg h₂]
        rfl

/-- C1 (amended): `link`, `unlink` and `reassignContactCompany` always
issue the contact-side write before any company-side write, but
`replaceCompanyMembers` persists the company before the contact bulk
updates — its trace satisfies the contact-first order only when it is
empty (an error path that wrote nothing). -/
theorem relationship_write_order (db : DB) (cid coid uid : Nat)
    (oc : Option Nat) (newIds : List Nat) :
    contactPrecedes (linkContactToCompany db cid coid uid).2.2 = true ∧
    contactPrecedes (unlinkContactFromCompany db cid coid uid).2.2 = true ∧
    contactPrecedes (updateContactCompany db cid oc uid).2.2 = true ∧
    contactPrecedes (updateCompanyContacts db coid newIds uid).2.2 =
      ((updateCompanyContacts db coid newIds uid).2.2).isEmpty :=
  ⟨link_trace_ordered db cid coid uid, unlink_trace_ordered db cid coid uid,
   reassign_trace_ordered db cid oc uid,
   replaceMembers_trace_company_first db coid newIds uid⟩

/-- C1 counterexample: a successful `replaceCompanyMembers` call (company
10 with member 2, replaced by member 3, all owned by user 1) issues its
company-side write before any contact-side write, refuting the claim that
every operation writes the contact side first. -/
theorem relationship_write_order_counterexample :
    (updateCompanyContacts
        (DB.mk [Contact.mk 2 1 (some 10), Contact.mk 3 1 none]
          [Company.mk 10 1 [2]]) 10 [3] 1).1 = .ok (Company.mk 10 1 [3]) ∧
    contactPrecedes (updateCompanyContacts
        (DB.mk [Contact.mk 2 1 (some 10), Contact.mk 3 1 none]
          [Company.mk 10 1 [2]]) 10 [3] 1).2.2 = false := by decide

/-- C2: after a successful `link`, the returned contact's `company_id` is
the returned company's id, the returned company's member set contains the
contact's id, and both returned documents are the persisted ones. -/
theorem link_establishes_link (db : DB) (cid coid uid : Nat)
    (c : Contact) (co : Company) (db' : DB) (evs : List WriteEvent)
    (h : linkContactToCompany db cid coid uid = (.ok (c, co), db', evs)) :
    c.id = cid ∧ co.id = coid ∧ c.company_id = some co.id ∧
    c.id ∈ co.contacts ∧
    findContact db' cid uid = some c ∧ findCompany db' coid uid = some co := by
  unfold linkContactToCompany at h
  cases hct : findContact db cid uid with
  | none => rw [hct] at h; exact absurd h (by simp)
  | some contact =>
    rw [hct] at h
    cases hco : findCompany db coid uid with
    | none => rw [hco] at h; exact absurd h (by simp)
    | some company =>
      rw [hco] at h
      dsimp only at h
      obtain ⟨hpct, hmct⟩ := find?_some_spec _ _ _ hct
      obtain ⟨hpco, hmco⟩ := find?_some_spec _ _ _ hco
      simp only [Bool.and_eq_true, beq_iff_eq] at hpct hpco
      obtain ⟨hctid, hctuid⟩ := hpct
      obtain ⟨hcoid, hcouid⟩ := hpco
      by_cases hin : company.contacts.contains cid = true
      · rw [if_pos hin] at h
        simp only [Prod.mk.injEq, Except.ok.injEq] at h
        obtain ⟨⟨hc, hco2⟩, hdb, _⟩ := h
        subst hc hco2 hdb
        refine ⟨hctid, hcoid, by simp [hcoid], ?_, ?_, ?_⟩
        · rw [hctid]
          exact (contains_iff_mem _ _).mp hin
        · show (db.contacts.map _).find? _ = _
          exact find?_map_replace _ _ _ _
            ⟨contact, hmct, by simp⟩ (by simp [hctid, hctuid])
            (fun x hx => by
              simp only [Bool.and_eq_true, beq_iff_eq] at hx
              simp [hx.1, hctid])
        · exact hco
      · rw [if_neg hin] at h
        simp only [Prod.mk.injEq, Except.ok.injEq] at h
        obtain ⟨⟨hc, hco2⟩, hdb, _⟩ := h
        subst hc hco2 hdb
        refine ⟨hctid, hcoid, by simp [hcoid], ?_, ?_, ?_⟩
        · rw [hctid]
          exact List.mem_append.mpr (Or.inr (List.mem_singleton.mpr rfl))
        · show (db.contacts.map _).find? _ = _
          exact find?_map_replace _ _ _ _
            ⟨contact, hmct, by simp⟩ (by simp [hctid, hctuid])
            (fun x hx => by
              simp only [Bool.and_eq_true, beq_iff_eq] at hx
              simp [hx.1, hctid])
        · show (db.companies.map _).find? _ = _
          exact find?_map_replace _ _ _ _
            ⟨company, hmco, by simp⟩ (by simp [hcoid, hcouid])
            (fun x hx => by
              simp only [Bool.and_eq_true, beq_iff_eq] at hx
              simp [hx.1, hcoid])

/-- C2 witness: linking contact 1 to company 10 under owner 5 in a
two-document store satisfies the proved postcondition. -/
theorem link_establishes_link_witness :
    (Contact.mk 1 5 (some 10)).id = 1 ∧ (Company.mk 10 5 [1]).id = 10 ∧
    (Contact.mk 1 5 (some 10)).company_id = some (Company.mk 10 5 [1]).id ∧
    (Contact.mk 1 5 (some 10)).id ∈ (Company.mk 10 5 [1]).contacts ∧
    findContact (DB.mk [Contact.mk 1 5 (some 10)] [Company.mk 10 5 [1]]) 1 5 =
      some (Contact.mk 1 5 (some 10)) ∧
    findCompany (DB.mk [Contact.mk 1 5 (some 10)] [Company.mk 10 5 [1]]) 10 5 =
      some (Company.mk 10 5 [1]) :=
  link_establishes_link (DB.mk [Contact.mk 1 5 none] [Company.mk 10 5 []])
    1 10 5 (Contact.mk 1 5 (some 10)) (Company.mk 10 5 [1])
    (DB.mk [Contact.mk 1 5 (some 10)] [Company.mk 10 5 [1]])
    [.contactWrite 1, .companyWrite 10] (by decide)

/-- C7: after a successful `unlink` of a contact linked to the company,
the returned contact's `company_id` is cleared, the returned company's
member set no longer contains the contact, and both returned documents
are the persisted ones. -/
theorem unlink_clears_link (db : DB) (cid coid uid : Nat)
    (c₀ : Contact) (co₀ : Company)
    (hct : findContact db cid uid = some c₀)
    (hlinked : c₀.company_id = some coid)
    (hco : findCompany db coid uid = some co₀)
    (hmem : cid ∈ co₀.contacts)
    (c : Contact) (co : Company) (db' : DB) (evs : List WriteEvent)
    (h : unlinkContactFromCompany db cid coid uid = (.ok (c, co), db', evs)) :
    c.company_id = none ∧ cid ∉ co.contacts ∧
    findContact db' cid uid = some c ∧ findCompany db' coid uid = some co := by
  unfold unlinkContactFromCompany at h
  rw [hct, hco] at h
  dsimp only at h
  obtain ⟨hpct, hmct⟩ := find?_some_spec _ _ _ hct
  obtain ⟨hpco, hmco⟩ := find?_some_spec _ _ _ hco
  simp only [Bool.and_eq_true, beq_iff_eq] at hpct hpco
  obtain ⟨hctid, hctuid⟩ := hpct
  obtain ⟨hcoid, hcouid⟩ := hpco
  simp only [Prod.mk.injEq, Except.ok.injEq] at h
  obtain ⟨⟨hc, hco2⟩, hdb, _⟩ := h
  subst hc hco2 hdb
  refine ⟨rfl, ?_, ?_, ?_⟩
  · intro hmem'
    have := List.mem_filter.mp hmem'
    simp at this
  · show (db.contacts.map _).find? _ = _
    exact find?_map_replace _ _ _ _
      ⟨c₀, hmct, by simp⟩ (by simp [hctid, hctuid])
      (fun x hx => by
        simp only [Bool.and_eq_true, beq_iff_eq] at hx
        simp [hx.1, hctid])
  · show (db.companies.map _).find? _ = _
    exact find?_map_replace _ _ _ _
      ⟨co₀, hmco, by simp⟩ (by simp [hcoid, hcouid])
      (fun x hx => by
        simp only [Bool.and_eq_true, beq_iff_eq] at hx
        simp [hx.1, hcoid])

/-- C7 witness: unlinking contact 1 from company 10 under owner 5. -/
theorem unlink_clears_link_witness :
    (Contact.mk 1 5 none).company_id = none ∧
    1 ∉ (Company.mk 10 5 []).contacts ∧
    findContact (DB.mk [Contact.mk 1 5 none] [Company.mk 10 5 []]) 1 5 =
      some (Contact.mk 1 5 none) ∧
    findCompany (DB.mk [Contact.mk 1 5 none] [Company.mk 10 5 []]) 10 5 =
      some (Company.mk 10 5 []) :=
  unlink_clears_link (DB.mk [Contact.mk 1 5 (some 10)] [Company.mk 10 5 [1]])
    1 10 5 (Contact.mk 1 5 (some 10)) (Company.mk 10 5 [1])
    (by decide) (by decide) (by decide) (by decide)
    (Contact.mk 1 5 none) (Company.mk 10 5 [])
    (DB.mk [Contact.mk 1 5 none] [Company.mk 10 5 []])
    [.contactWrite 1, .companyWrite 10] (by decide)

/-- C5: when the contact or the company does not resolve under the caller
(including documents owned by another user), `link` fails with the
not-found error naming the missing kind, returns the store unchanged, and
issues no write. -/
theorem link_notFound_no_mutation (db : DB) (cid coid uid : Nat)
    (h : findContact db cid uid = none ∨ findCompany db coid uid = none) :
    linkContactToCompany db cid coid uid =
      (.error (if findContact db cid uid = none then DbError.contactNotFound
        else DbError.companyNotFound), db, []) := by
  unfold linkContactToCompany
  cases hct : findContact db cid uid with
  | none => rw [if_pos rfl]
  | some contact =>
    rw [if_neg (by simp)]
    cases hco : findCompany db coid uid with
    | none => rfl
    | some company =>
      rw [hct] at h
      rcases h with h | h
      · exact absurd h (by simp)
      · rw [hco] at h
        exact absurd h (by simp)

/-- C5 witness: contact 1 belongs to user 7, so user 5 cannot link it;
the call fails with the contact-not-found error and nothing changes. -/
theorem link_notFound_no_mutation_witness :
    (findContact (DB.mk [Contact.mk 1 7 none] [Company.mk 10 5 []]) 1 5 = none ∨
      findCompany (DB.mk [Contact.mk 1 7 none] [Company.mk 10 5 []]) 10 5 = none) ∧
    linkContactToCompany (DB.mk [Contact.mk 1 7 none] [Company.mk 10 5 []]) 1 10 5 =
      (.error (if findContact (DB.mk [Contact.mk 1 7 none] [Company.mk 10 5 []]) 1 5 = none
        then DbError.contactNotFound else DbError.companyNotFound),
       DB.mk [Contact.mk 1 7 none] [Company.mk 10 5 []], []) :=
  ⟨by decide,
   link_notFound_no_mutation (DB.mk [Contact.mk 1 7 none] [Company.mk 10 5 []])
     1 10 5 (by decide)⟩

/-- Saving the same contact twice persists the same store. -/
theorem saveContact_idem (db : DB) (c : Contact) :
    saveContact (saveContact db c) c = saveContact db c := by
  unfold saveContact
  dsimp only
  congr 1
  exact map_replace_self _ _ _ (mem_map_replace _ _ _)

/-- Re-saving a contact after an interleaved company save is also a no-op
on the store. -/
theorem saveContact_after_saveCompany_idem (db : DB) (c : Contact)
    (co : Company) :
    saveContact (saveCompany (saveContact db c) co) c =
      saveCompany (saveContact db c) co := by
  unfold saveContact saveCompany
  dsimp only
  congr 1
  exact map_replace_self _ _ _ (mem_map_replace _ _ _)

/-- C8: `link` is idempotent: after one successful run, running it again
with identical arguments returns the same documents, leaves the store in
the identical state, and performs only the no-op contact save — the
second call never appends to the member set again. -/
theorem link_idempotent (db : DB) (cid coid uid : Nat)
    (r : Contact × Company) (db₁ : DB) (evs : List WriteEvent)
    (h : linkContactToCompany db cid coid uid = (.ok r, db₁, evs)) :
    linkContactToCompany db₁ cid coid uid =
      (.ok r, db₁, [.contactWrite cid]) := by
  unfold linkContactToCompany at h
  cases hct : findContact db cid uid with
  | none => rw [hct] at h; exact absurd h (by simp)
  | some contact =>
    rw [hct] at h
    cases hco : findCompany db coid uid with
    | none => rw [hco] at h; exact absurd h (by simp)
    | some company =>
      rw [hco] at h
      dsimp only at h
      obtain ⟨hpct, hmct⟩ := find?_some_spec _ _ _ hct
      obtain ⟨hpco, hmco⟩ := find?_some_spec _ _ _ hco
      simp only [Bool.and_eq_true, beq_iff_eq] at hpct hpco
      obtain ⟨hctid, hctuid⟩ := hpct
      obtain ⟨hcoid, hcouid⟩ := hpco
      by_cases hin : company.contacts.contains cid = true
      · rw [if_pos hin] at h
        simp only [Prod.mk.injEq, Except.ok.injEq] at h
        obtain ⟨hr, hdb, _⟩ := h
        subst hr hdb
        have hfc : findContact (saveContact db
            { contact with company_id := some coid }) cid uid =
            some { contact with company_id := some coid } := by
          show (db.contacts.map _).find? _ = _
          exact find?_map_replace _ _ _ _
            ⟨contact, hmct, by simp⟩ (by simp [hctid, hctuid])
            (fun x hx => by
              simp only [Bool.and_eq_true, beq_iff_eq] at hx
              simp [hx.1, hctid])
        unfold linkContactToCompany
        rw [hfc]
        have hfco : findCompany (saveContact db
            { contact with company_id := some coid }) coid uid = some company := hco
        rw [hfco]
        dsimp only
        rw [if_pos hin]
        rw [saveContact_idem]
      · rw [if_neg hin] at h
        simp only [Prod.mk.injEq, Except.ok.injEq] at h
        obtain ⟨hr, hdb, _⟩ := h
        subst hr hdb
        have hfc : findContact (saveCompany (saveContact db
            { contact with company_id := some coid })
            { company with contacts := company.contacts ++ [cid] }) cid uid =
            some { contact with company_id := some coid } := by
          show (db.contacts.map _).find? _ = _
          exact find?_map_replace _ _ _ _
            ⟨contact, hmct, by simp⟩ (by simp [hctid, hctuid])
            (fun x hx => by
              simp only [Bool.and_eq_true, beq_iff_eq] at hx
              simp [hx.1, hctid])
        have hfco : findCompany (saveCompany (saveContact db
            { contact with company_id := some coid })
            { company with contacts := company.contacts ++ [cid] }) coid uid =
            some { company with contacts := company.contacts ++ [cid] } := by
          show (db.companies.map _).find? _ = _
          exact find?_map_replace _ _ _ _
            ⟨company, hmco, by simp⟩ (by simp [hcoid, hcouid])
            (fun x hx => by
              simp only [Bool.and_eq_true, beq_iff_eq] at hx
              simp [hx.1, hcoid])
        unfold linkContactToCompany
        rw [hfc, hfco]
        dsimp only
        rw [if_pos (by
          apply (contains_iff_mem _ _).mpr
          exact List.mem_append.mpr (Or.inr (List.mem_singleton.mpr rfl)))]
        rw [saveContact_after_saveCompany_idem]

/-- C8 witness: linking contact 1 to company 10 twice under owner 5 ends
in the state reached after the first call, with only a contact write on
the second call. -/
theorem link_idempotent_witness :
    linkContactToCompany
      (DB.mk [Contact.mk 1 5 (some 10)] [Company.mk 10 5 [1]]) 1 10 5 =
      (.ok (Contact.mk 1 5 (some 10), Company.mk 10 5 [1]),
       DB.mk [Contact.mk 1 5 (some 10)] [Company.mk 10 5 [1]],
       [.contactWrite 1]) :=
  link_idempotent (DB.mk [Contact.mk 1 5 none] [Company.mk 10 5 []]) 1 10 5
    (Contact.mk 1 5 (some 10), Company.mk 10 5 [1])
    (DB.mk [Contact.mk 1 5 (some 10)] [Company.mk 10 5 [1]])
    [.contactWrite 1, .companyWrite 10] (by decide)

/-- C9: linking a contact that currently points at company `A` to a
different company `B` of the same owner updates the contact, appends it to
`B`'s member set, and leaves `A`'s document — its stale member reference
included — entirely unchanged. -/
theorem link_leaves_old_company_stale (db : DB) (cid A B uid : Nat)
    (ct : Contact) (hct : findContact db cid uid = some ct)
    (hcur : ct.company_id = some A)
    (coA : Company) (hcoA : findCompany db A uid = some coA)
    (hstale : cid ∈ coA.contacts)
    (coB : Company) (hcoB : findCompany db B uid = some coB)
    (hnotin : cid ∉ coB.contacts)
    (hne : A ≠ B) :
    ∃ db' : DB,
      linkContactToCompany db cid B uid =
        (.ok ({ ct with company_id := some B },
          { coB with contacts := coB.contacts ++ [cid] }), db',
         [.contactWrite cid, .companyWrite B]) ∧
      findContact db' cid uid = some { ct with company_id := some B } ∧
      findCompany db' B uid =
        some { coB with contacts := coB.contacts ++ [cid] } ∧
      findCompany db' A uid = some coA ∧ cid ∈ coA.contacts := by
  obtain ⟨hpct, hmct⟩ := find?_some_spec _ _ _ hct
  obtain ⟨hpcoB, hmcoB⟩ := find?_some_spec _ _ _ hcoB
  simp only [Bool.and_eq_true, beq_iff_eq] at hpct hpcoB
  obtain ⟨hctid, hctuid⟩ := hpct
  obtain ⟨hcoBid, hcoBuid⟩ := hpcoB
  refine ⟨saveCompany (saveContact db { ct with company_id := some B })
    { coB with contacts := coB.contacts ++ [cid] }, ?_, ?_, ?_, ?_, hstale⟩
  · unfold linkContactToCompany
    rw [hct, hcoB]
    dsimp only
    rw [if_neg (fun hc => hnotin ((contains_iff_mem _ _).mp hc))]
  · show (db.contacts.map _).find? _ = _
    exact find?_map_replace _ _ _ _
      ⟨ct, hmct, by simp⟩ (by simp [hctid, hctuid])
      (fun x hx => by
        simp only [Bool.and_eq_true, beq_iff_eq] at hx
        simp [hx.1, hctid])
  · show (db.companies.map _).find? _ = _
    exact find?_map_replace _ _ _ _
      ⟨coB, hmcoB, by simp⟩ (by simp [hcoBid, hcoBuid])
      (fun x hx => by
        simp only [Bool.and_eq_true, beq_iff_eq] at hx
        simp [hx.1, hcoBid])
  · show (db.companies.map _).find? _ = _
    rw [find?_map_other _ _ _
      (by simp [hcoBid]; exact fun h => absurd h.symm hne)
      (fun x hx => by
        simp only [Bool.and_eq_true, beq_iff_eq] at hx
        simp [hx.1, hcoBid]
        exact hne)]
    exact hcoA

/-- C9 witness: contact 1 linked to company 10 is re-linked to company 20;
company 10 keeps its stale member entry. -/
theorem link_leaves_old_company_stale_witness :
    ∃ db' : DB,
      linkContactToCompany
        (DB.mk [Contact.mk 1 5 (some 10)]
          [Company.mk 10 5 [1], Company.mk 20 5 []]) 1 20 5 =
        (.ok (Contact.mk 1 5 (some 20), Company.mk 20 5 [1]), db',
         [.contactWrite 1, .companyWrite 20]) ∧
      findContact db' 1 5 = some (Contact.mk 1 5 (some 20)) ∧
      findCompany db' 20 5 = some (Company.mk 20 5 [1]) ∧
      findCompany db' 10 5 = some (Company.mk 10 5 [1]) ∧
      1 ∈ (Company.mk 10 5 [1]).contacts :=
  link_leaves_old_company_stale
    (DB.mk [Contact.mk 1 5 (some 10)] [Company.mk 10 5 [1], Company.mk 20 5 []])
    1 10 20 5 (Contact.mk 1 5 (some 10)) (by decide) (by decide)
    (Company.mk 10 5 [1]) (by decide) (by decide)
    (Company.mk 20 5 []) (by decide) (by decide) (by decide)

/-- On a resolved-count mismatch, `updateCompanyContacts` throws the
contacts-not-found error before any write. -/
theorem updateCompanyContacts_len_mismatch (db : DB) (coid uid : Nat)
    (newIds : List Nat) (co : Company)
    (hco : findCompany db coid uid = some co)
    (hlen : (findContactsIn db newIds uid).length ≠ newIds.length) :
    updateCompanyContacts db coid newIds uid =
      (.error .contactsNotFound, db, []) := by
  unfold updateCompanyContacts
  rw [hco]
  dsimp only
  rw [if_pos (by simpa using hlen)]

/-- C4: when the count of contacts resolving under the owner differs from
the count of requested ids, `replaceCompanyMembers` fails with the
contacts-not-found error and returns the store exactly as it was, with no
write issued. -/
theorem replaceMembers_mismatch_no_mutation (db : DB) (coid uid : Nat)
    (newIds : List Nat) (co : Company)
    (hco : findCompany db coid uid = some co)
    (hlen : (findContactsIn db newIds uid).length ≠ newIds.length) :
    updateCompanyContacts db coid newIds uid =
      (.error .contactsNotFound, db, []) :=
  updateCompanyContacts_len_mismatch db coid uid newIds co hco hlen

/-- C4 witness: contact 3 belongs to user 9, so user 5's replacement
request `[3]` resolves to zero contacts and the call mutates nothing. -/
theorem replaceMembers_mismatch_no_mutation_witness :
    findCompany (DB.mk [Contact.mk 3 9 none] [Company.mk 10 5 [4]]) 10 5 =
      some (Company.mk 10 5 [4]) ∧
    (findContactsIn (DB.mk [Contact.mk 3 9 none] [Company.mk 10 5 [4]]) [3] 5).length ≠
      [3].length ∧
    updateCompanyContacts (DB.mk [Contact.mk 3 9 none] [Company.mk 10 5 [4]])
      10 [3] 5 =
      (.error .contactsNotFound,
       DB.mk [Contact.mk 3 9 none] [Company.mk 10 5 [4]], []) :=
  ⟨by decide, by decide,
   replaceMembers_mismatch_no_mutation
     (DB.mk [Contact.mk 3 9 none] [Company.mk 10 5 [4]]) 10 5 [3]
     (Company.mk 10 5 [4]) (by decide) (by decide)⟩

/-- C10: when the request list contains a duplicated id, the distinct
resolved documents are fewer than the requested ids (under the store
invariant that `_id`s are unique), so `replaceCompanyMembers` fails with
the contacts-not-found error and mutates nothing — even when every listed
contact exists under the owner. -/
theorem replaceMembers_duplicate_fails (db : DB) (coid uid : Nat)
    (newIds : List Nat)
    (hwf : (db.contacts.map Contact.id).Nodup)
    (hdup : ¬ newIds.Nodup)
    (co : Company) (hco : findCompany db coid uid = some co) :
    updateCompanyContacts db coid newIds uid =
      (.error .contactsNotFound, db, []) := by
  have hids : ((findContactsIn db newIds uid).map Contact.id).Nodup :=
    List.Nodup.sublist ((List.filter_sublist db.contacts).map Contact.id) hwf
  have hsub : (findContactsIn db newIds uid).map Contact.id ⊆ newIds.dedup := by
    intro x hx
    rcases List.mem_map.mp hx with ⟨c, hc, rfl⟩
    have := List.of_mem_filter hc
    simp only [Bool.and_eq_true] at this
    exact List.mem_dedup.mpr ((contains_iff_mem _ _).mp this.1)
  have hle : (findContactsIn db newIds uid).length ≤ newIds.dedup.length := by
    have := (List.subperm_of_subset hids hsub).length_le
    simpa using this
  have hlt : newIds.dedup.length < newIds.length := by
    rcases Nat.lt_or_ge newIds.dedup.length newIds.length with h | h
    · exact h
    · exfalso
      have hsl : List.Sublist newIds.dedup newIds := List.dedup_sublist _
      have heq : newIds.dedup = newIds :=
        hsl.eq_of_length (Nat.le_antisymm hsl.length_le h)
      exact hdup (heq ▸ List.nodup_dedup newIds)
  exact updateCompanyContacts_len_mismatch db coid uid newIds co hco
    (Nat.ne_of_lt (Nat.lt_of_le_of_lt hle hlt))

/-- C10 witness: requesting `[1, 1]` resolves to the single contact 1, so
the duplicated request fails although contact 1 exists under owner 5. -/
theorem replaceMembers_duplicate_fails_witness :
    ([Contact.mk 1 5 none].map Contact.id).Nodup ∧
    ¬ ([1, 1] : List Nat).Nodup ∧
    updateCompanyContacts (DB.mk [Contact.mk 1 5 none] [Company.mk 10 5 []])
      10 [1, 1] 5 =
      (.error .contactsNotFound,
       DB.mk [Contact.mk 1 5 none] [Company.mk 10 5 []], []) :=
  ⟨by decide, by decide,
   replaceMembers_duplicate_fails
     (DB.mk [Contact.mk 1 5 none] [Company.mk 10 5 []]) 10 5 [1, 1]
     (by decide) (by decide) (Company.mk 10 5 []) (by decide)⟩

/-- Searching a contact by id and owner is insensitive to updates that
only touch `company_id`. -/
theorem findContact_pred_stable (x uid : Nat) (r : Contact → Bool)
    (v : Option Nat) (c : Contact) :
    ((fun c : Contact => c.id == x && c.createdBy == uid)
      (if r c then { c with company_id := v } else c)) =
    ((fun c : Contact => c.id == x && c.createdBy == uid) c) := by
  by_cases h : r c = true
  · rw [if_pos h]
  · rw [if_neg h]

/-- C3: a successful `replaceCompanyMembers` stores exactly the requested
member list on the company, points every requested contact at the
company (changing nothing else on it), and clears `company_id` on every
previous member absent from the request. -/
theorem replaceMembers_spec (db : DB) (coid uid : Nat) (newIds : List Nat)
    (co : Company) (hco : findCompany db coid uid = some co)
    (co' : Company) (db' : DB) (evs : List WriteEvent)
    (h : updateCompanyContacts db coid newIds uid = (.ok co', db', evs)) :
    co'.contacts = newIds ∧
    findCompany db' coid uid = some co' ∧
    (∀ x ∈ newIds, findContact db' x uid =
      (findContact db x uid).map (fun d => { d with company_id := some coid })) ∧
    (∀ x ∈ co.contacts, x ∉ newIds → findContact db' x uid =
      (findContact db x uid).map (fun d => { d with company_id := none })) := by
  obtain ⟨hpco, hmco⟩ := find?_some_spec _ _ _ hco
  simp only [Bool.and_eq_true, beq_iff_eq] at hpco
  obtain ⟨hcoid, hcouid⟩ := hpco
  unfold updateCompanyContacts at h
  rw [hco] at h
  dsimp only at h
  by_cases hlen : ((findContactsIn db newIds uid).length != newIds.length) = true
  · rw [if_pos hlen] at h
    exact absurd h (by simp)
  · rw [if_neg hlen] at h
    have hremiff : ∀ x : Nat,
        x ∈ List.filter (fun i => !(newIds.contains i)) co.contacts ↔
          x ∈ co.contacts ∧ x ∉ newIds := by
      intro x
      rw [List.mem_filter]
      constructor
      · rintro ⟨h1, h2⟩
        refine ⟨h1, fun hx => ?_⟩
        rw [Bool.not_eq_true', ← Bool.not_eq_true] at h2
        exact h2 ((contains_iff_mem _ _).mpr hx)
      · rintro ⟨h1, h2⟩
        refine ⟨h1, ?_⟩
        simp only [Bool.not_eq_true']
        rw [← Bool.not_eq_true]
        exact fun hc => h2 ((contains_iff_mem _ _).mp hc)
    by_cases hrem :
        (List.filter (fun i => !(newIds.contains i)) co.contacts).length > 0
    · rw [if_pos hrem] at h
      simp only [Prod.mk.injEq, Except.ok.injEq] at h
      obtain ⟨hc, hdb, _⟩ := h
      subst hc hdb
      refine ⟨rfl, ?_, ?_, ?_⟩
      · show (db.companies.map _).find? _ = _
        exact find?_map_replace _ _ _ _
          ⟨co, hmco, by simp⟩ (by simp [hcoid, hcouid])
          (fun x hx => by
            simp only [Bool.and_eq_true, beq_iff_eq] at hx
            simp [hx.1, hcoid])
      · intro x hx
        have hxcont : newIds.contains x = true := (contains_iff_mem _ _).mpr hx
        show ((db.contacts.map _).map _).find? _ = _
        rw [find?_map_update _ _ (findContact_pred_stable x uid _ _),
          find?_map_update _ _ (findContact_pred_stable x uid _ _)]
        show ((findContact db x uid).map _).map _ = _
        cases hfd : findContact db x uid with
        | none => rfl
        | some d =>
          obtain ⟨hpd, _⟩ := find?_some_spec _ _ _ hfd
          simp only [Bool.and_eq_true, beq_iff_eq] at hpd
          obtain ⟨hdid, hduid⟩ := hpd
          dsimp only [Option.map]
          have hcond1 : (newIds.contains d.id && (d.createdBy == uid)) = true := by
            rw [hdid, hduid, hxcont]
            simp
          rw [if_pos hcond1]
          dsimp only
          have hcond2 : ¬ (((List.filter (fun i => !(newIds.contains i))
              co.contacts).contains d.id && (d.createdBy == uid)) = true) := by
            intro hcontra
            simp only [Bool.and_eq_true] at hcontra
            have hmem := (contains_iff_mem _ _).mp hcontra.1
            have hprop := List.of_mem_filter hmem
            simp only [hdid, Bool.not_eq_true'] at hprop
            rw [hxcont] at hprop
            exact Bool.noConfusion hprop
          rw [if_neg hcond2]
      · intro x hxold hxnew
        show ((db.contacts.map _).map _).find? _ = _
        rw [find?_map_update _ _ (findContact_pred_stable x uid _ _),
          find?_map_update _ _ (findContact_pred_stable x uid _ _)]
        show ((findContact db x uid).map _).map _ = _
        cases hfd : findContact db x uid with
        | none => rfl
        | some d =>
          obtain ⟨hpd, _⟩ := find?_some_spec _ _ _ hfd
          simp only [Bool.and_eq_true, beq_iff_eq] at hpd
          obtain ⟨hdid, hduid⟩ := hpd
          dsimp only [Option.map]
          have hcond1 : ¬ ((newIds.contains d.id && (d.createdBy == uid)) = true) := by
            intro hcontra
            simp only [Bool.and_eq_true] at hcontra
            rw [hdid] at hcontra
            exact hxnew ((contains_iff_mem _ _).mp hcontra.1)
          rw [if_neg hcond1]
          have hcond2 : ((List.filter (fun i => !(newIds.contains i))
              co.contacts).contains d.id && (d.createdBy == uid)) = true := by
            rw [hdid, hduid]
            simp only [beq_self_eq_true, Bool.and_true]
            exact (contains_iff_mem _ _).mpr ((hremiff x).mpr ⟨hxold, hxnew⟩)
          rw [if_pos hcond2]
    · rw [if_neg hrem] at h
      simp only [Prod.mk.injEq, Except.ok.injEq] at h
      obtain ⟨hc, hdb, _⟩ := h
      subst hc hdb
      refine ⟨rfl, ?_, ?_, ?_⟩
      · show (db.companies.map _).find? _ = _
        exact find?_map_replace _ _ _ _
          ⟨co, hmco, by simp⟩ (by simp [hcoid, hcouid])
          (fun x hx => by
            simp only [Bool.and_eq_true, beq_iff_eq] at hx
            simp [hx.1, hcoid])
      · intro x hx
        have hxcont : newIds.contains x = true := (contains_iff_mem _ _).mpr hx
        show (db.contacts.map _).find? _ = _
        rw [find?_map_update _ _ (findContact_pred_stable x uid _ _)]
        show (findContact db x uid).map _ = _
        cases hfd : findContact db x uid with
        | none => rfl
        | some d =>
          obtain ⟨hpd, _⟩ := find?_some_spec _ _ _ hfd
          simp only [Bool.and_eq_true, beq_iff_eq] at hpd
          obtain ⟨hdid, hduid⟩ := hpd
          dsimp only [Option.map]
          have hcond1 : (newIds.contains d.id && (d.createdBy == uid)) = true := by
            rw [hdid, hduid, hxcont]
            simp
          rw [if_pos hcond1]
      · intro x hxold hxnew
        exfalso
        have : x ∈ List.filter (fun i => !(newIds.contains i)) co.contacts :=
          (hremiff x).mpr ⟨hxold, hxnew⟩
        have hpos : 0 <
            (List.filter (fun i => !(newIds.contains i)) co.contacts).length :=
          List.length_pos.mpr (List.ne_nil_of_mem this)
        exact hrem hpos

/-- C3 witness: replacing company 10's members `[1]` by `[2]` under owner
5 relinks contact 2, detaches contact 1 and stores `[2]` on the company. -/
theorem replaceMembers_spec_witness :
    (Company.mk 10 5 [2]).contacts = [2] ∧
    findCompany (DB.mk [Contact.mk 1 5 none, Contact.mk 2 5 (some 10)]
      [Company.mk 10 5 [2]]) 10 5 = some (Company.mk 10 5 [2]) ∧
    (∀ x ∈ ([2] : List Nat),
      findContact (DB.mk [Contact.mk 1 5 none, Contact.mk 2 5 (some 10)]
        [Company.mk 10 5 [2]]) x 5 =
      (findContact (DB.mk [Contact.mk 1 5 (some 10), Contact.mk 2 5 none]
        [Company.mk 10 5 [1]]) x 5).map
          (fun d => { d with company_id := some 10 })) ∧
    (∀ x ∈ (Company.mk 10 5 [1]).contacts, x ∉ ([2] : List Nat) →
      findContact (DB.mk [Contact.mk 1 5 none, Contact.mk 2 5 (some 10)]
        [Company.mk 10 5 [2]]) x 5 =
      (findContact (DB.mk [Contact.mk 1 5 (some 10), Contact.mk 2 5 none]
        [Company.mk 10 5 [1]]) x 5).map
          (fun d => { d with company_id := none })) :=
  replaceMembers_spec
    (DB.mk [Contact.mk 1 5 (some 10), Contact.mk 2 5 none] [Company.mk 10 5 [1]])
    10 5 [2] (Company.mk 10 5 [1]) (by decide) (Company.mk 10 5 [2])
    (DB.mk [Contact.mk 1 5 none, Contact.mk 2 5 (some 10)] [Company.mk 10 5 [2]])
    [.companyWrite 10, .contactsBulkWrite [2], .contactsBulkWrite [1]] (by decide)

/-- C6: reassigning a contact linked to company `A` to a different
company `B` of the same owner unlinks it from `A` and links it to `B`:
afterwards the persisted contact points at `B`, `A`'s member set no
longer contains it, and `B`'s member set contains it. -/
theorem reassign_moves_contact (db : DB) (cid A B uid : Nat)
    (ct : Contact) (hct : findContact db cid uid = some ct)
    (hcur : ct.company_id = some A)
    (coA : Company) (hcoA : findCompany db A uid = some coA)
    (hmemA : cid ∈ coA.contacts)
    (coB : Company) (hcoB : findCompany db B uid = some coB)
    (hne : A ≠ B) :
    ∃ (c' : Contact) (coB' : Company) (db' : DB) (evs : List WriteEvent),
      updateContactCompany db cid (some B) uid =
        (.ok (c', some coB'), db', evs) ∧
      c'.company_id = some B ∧
      findContact db' cid uid = some c' ∧
      (∃ coA', findCompany db' A uid = some coA' ∧ cid ∉ coA'.contacts) ∧
      findCompany db' B uid = some coB' ∧ cid ∈ coB'.contacts := by
  obtain ⟨hpct, hmct⟩ := find?_some_spec _ _ _ hct
  obtain ⟨hpcoA, hmcoA⟩ := find?_some_spec _ _ _ hcoA
  obtain ⟨hpcoB, hmcoB⟩ := find?_some_spec _ _ _ hcoB
  simp only [Bool.and_eq_true, beq_iff_eq] at hpct hpcoA hpcoB
  obtain ⟨hctid, hctuid⟩ := hpct
  obtain ⟨hcoAid, hcoAuid⟩ := hpcoA
  obtain ⟨hcoBid, hcoBuid⟩ := hpcoB
  have hu : unlinkContactFromCompany db cid A uid =
      (.ok ({ ct with company_id := none },
        { coA with contacts := coA.contacts.filter (fun i => i != cid) }),
       saveCompany (saveContact db { ct with company_id := none })
        { coA with contacts := coA.contacts.filter (fun i => i != cid) },
       [.contactWrite cid, .companyWrite A]) := by
    unfold unlinkContactFromCompany
    rw [hct, hcoA]
  have hfct : findContact (saveCompany
      (saveContact db { ct with company_id := none })
      { coA with contacts := coA.contacts.filter (fun i => i != cid) }) cid uid =
      some { ct with company_id := none } := by
    show (db.contacts.map _).find? _ = _
    exact find?_map_replace _ _ _ _
      ⟨ct, hmct, by simp⟩ (by simp [hctid, hctuid])
      (fun x hx => by
        simp only [Bool.and_eq_true, beq_iff_eq] at hx
        simp [hx.1, hctid])
  have hfcoB : findCompany (saveCompany
      (saveContact db { ct with company_id := none })
      { coA with contacts := coA.contacts.filter (fun i => i != cid) }) B uid =
      some coB := by
    show (db.companies.map _).find? _ = _
    rw [find?_map_other _ _ _
      (by simp [hcoAid]; exact fun h => absurd h.symm hne.symm)
      (fun x hx => by
        simp only [Bool.and_eq_true, beq_iff_eq] at hx
        simp [hx.1, hcoAid]
        exact fun h => absurd h.symm hne)]
    exact hcoB
  have hfcoA : findCompany (saveCompany
      (saveContact db { ct with company_id := none })
      { coA with contacts := coA.contacts.filter (fun i => i != cid) }) A uid =
      some { coA with contacts := coA.contacts.filter (fun i => i != cid) } := by
    show (db.companies.map _).find? _ = _
    exact find?_map_replace _ _ _ _
      ⟨coA, hmcoA, by simp⟩ (by simp [hcoAid, hcoAuid])
      (fun x hx => by
        simp only [Bool.and_eq_true, beq_iff_eq] at hx
        simp [hx.1, hcoAid])
  have hnotinA : cid ∉ ({ coA with
      contacts := coA.contacts.filter (fun i => i != cid) } : Company).contacts := by
    intro hmem'
    have := List.mem_filter.mp hmem'
    simp at this
  unfold updateContactCompany
  rw [hct]
  dsimp only
  rw [hcoB]
  dsimp only
  rw [hcur]
  dsimp only
  rw [if_pos (by simp [hne])]
  rw [hu]
  dsimp only
  set dbu := saveCompany (saveContact db { ct with company_id := none })
    { coA with contacts := coA.contacts.filter (fun i => i != cid) } with hdbu
  by_cases hin : coB.contacts.contains cid = true
  · have hl : linkContactToCompany dbu cid B uid =
        (.ok ({ ct with company_id := some B }, coB),
         saveContact dbu { ct with company_id := some B },
         [.contactWrite cid]) := by
      unfold linkContactToCompany
      rw [hfct, hfcoB]
      dsimp only
      rw [if_pos hin]
    rw [hl]
    dsimp only
    refine ⟨{ ct with company_id := some B }, coB,
      saveContact dbu { ct with company_id := some B },
      [.contactWrite cid, .companyWrite A] ++ [.contactWrite cid],
      by rfl, rfl, ?_, ?_, ?_, (contains_iff_mem _ _).mp hin⟩
    · show (dbu.contacts.map _).find? _ = _
      exact find?_map_replace _ _ _ _
        ⟨{ ct with company_id := none }, List.mem_of_find?_eq_some hfct, by simp⟩
        (by simp [hctid, hctuid])
        (fun x hx => by
          simp only [Bool.and_eq_true, beq_iff_eq] at hx
          simp [hx.1, hctid])
    · exact ⟨{ coA with contacts := coA.contacts.filter (fun i => i != cid) },
        hfcoA, hnotinA⟩
    · exact hfcoB
  · have hl : linkContactToCompany dbu cid B uid =
        (.ok ({ ct with company_id := some B },
          { coB with contacts := coB.contacts ++ [cid] }),
         saveCompany (saveContact dbu { ct with company_id := some B })
          { coB with contacts := coB.contacts ++ [cid] },
         [.contactWrite cid, .companyWrite B]) := by
      unfold linkContactToCompany
      rw [hfct, hfcoB]
      dsimp only
      rw [if_neg hin]
    rw [hl]
    dsimp only
    refine ⟨{ ct with company_id := some B },
      { coB with contacts := coB.contacts ++ [cid] },
      saveCompany (saveContact dbu { ct with company_id := some B })
        { coB with contacts := coB.contacts ++ [cid] },
      [.contactWrite cid, .companyWrite A] ++ [.contactWrite cid, .companyWrite B],
      by rfl, rfl, ?_, ?_, ?_, ?_⟩
    · show (dbu.contacts.map _).find? _ = _
      exact find?_map_replace _ _ _ _
        ⟨{ ct with company_id := none }, List.mem_of_find?_eq_some hfct, by simp⟩
        (by simp [hctid, hctuid])
        (fun x hx => by
          simp only [Bool.and_eq_true, beq_iff_eq] at hx
          simp [hx.1, hctid])
    · refine ⟨{ coA with contacts := coA.contacts.filter (fun i => i != cid) },
        ?_, hnotinA⟩
      show (dbu.companies.map _).find? _ = _
      rw [find?_map_other _ _ _
        (by simp [hcoBid]; exact fun h => absurd h.symm hne)
        (fun x hx => by
          simp only [Bool.and_eq_true, beq_iff_eq] at hx
          simp [hx.1, hcoBid]
          exact hne)]
      exact hfcoA
    · show (dbu.companies.map _).find? _ = _
      exact find?_map_replace _ _ _ _
        ⟨coB, List.mem_of_find?_eq_some hfcoB, by simp⟩
        (by simp [hcoBid, hcoBuid])
        (fun x hx => by
          simp only [Bool.and_eq_true, beq_iff_eq] at hx
          simp [hx.1, hcoBid])
    · exact List.mem_append.mpr (Or.inr (List.mem_singleton.mpr rfl))

/-- C6 witness: contact 1 linked to company 10 is reassigned to company
20 under owner 5. -/
theorem reassign_moves_contact_witness :
    ∃ (c' : Contact) (coB' : Company) (db' : DB) (evs : List WriteEvent),
      updateContactCompany
        (DB.mk [Contact.mk 1 5 (some 10)]
          [Company.mk 10 5 [1], Company.mk 20 5 []]) 1 (some 20) 5 =
        (.ok (c', some coB'), db', evs) ∧
      c'.company_id = some 20 ∧
      findContact db' 1 5 = some c' ∧
      (∃ coA', findCompany db' 10 5 = some coA' ∧ 1 ∉ coA'.contacts) ∧
      findCompany db' 20 5 = some coB' ∧ 1 ∈ coB'.contacts :=
  reassign_moves_contact
    (DB.mk [Contact.mk 1 5 (some 10)] [Company.mk 10 5 [1], Company.mk 20 5 []])
    1 10 20 5 (Contact.mk 1 5 (some 10)) (by decide) (by decide)
    (Company.mk 10 5 [1]) (by decide) (by decide)
    (Company.mk 20 5 []) (by decide) (by decide)

end CRM
